import Mathlib
/-!
Verification development for the `splitter` add-on (src/__init__.py).

The Python source is shallowly embedded over `List Char`.  Pure Python
string helpers (`str.strip`, `str.splitlines`, `str.lower`, substring
search, `str.format`, `json.loads`) are modelled explicitly; each model's
doc comment names the corner cases of the Python primitive that are left
outside the model.
-/

/-- Model of Python's whitespace test as used by `str.strip()` with no
arguments (Unicode whitespace: ASCII space, tab, newline, carriage return,
vertical tab, form feed, the file/group/record/unit separators, NEL, NBSP,
and the Unicode space-separator code points). -/
def pyIsSpace (c : Char) : Bool :=
  c = ' ' || c = '\t' || c = '\n' || c = '\r' || c = '\x0b' || c = '\x0c' ||
  c = '\x1c' || c = '\x1d' || c = '\x1e' || c = '\x1f' || c = '\x85' || c = '\xa0' ||
  c = ' ' || (0x2000 ≤ c.val && c.val ≤ 0x200a) ||
  c = ' ' || c = ' ' || c = ' ' || c = ' ' || c = '　'

/-- Model of Python `str.strip()` (no arguments): drop whitespace from both
ends. -/
def pyStripL (l : List Char) : List Char :=
  ((l.dropWhile pyIsSpace).reverse.dropWhile pyIsSpace).reverse

/-- The backtick character (code point 96). -/
def backtickChar : Char := Char.ofNat 96

/-- Model of Python `text.startswith("` ``` `")`: the list begins with three
backticks. -/
def isFenceL (l : List Char) : Bool :=
  match l with
  | a :: b :: c :: _ => a = backtickChar && b = backtickChar && c = backtickChar
  | _ => false

/-- Line-break characters recognised by Python `str.splitlines` (besides the
two-character sequence CR LF). -/
def pyIsLineBreak (c : Char) : Bool :=
  c = '\n' || c = '\r' || c = '\x0b' || c = '\x0c' || c = '\x1c' ||
  c = '\x1d' || c = '\x1e' || c = '\x85' || c = ' ' || c = ' '

/-- Worker for `pySplitlines`: `acc` holds the current line reversed. -/
def pySplitlinesGo : List Char → List Char → List (List Char)
  | [], acc => if acc.isEmpty then [] else [acc.reverse]
  | '\r' :: '\n' :: r, acc => acc.reverse :: pySplitlinesGo r []
  | c :: r, acc =>
    if pyIsLineBreak c then acc.reverse :: pySplitlinesGo r []
    else pySplitlinesGo r (c :: acc)

/-- Model of Python `str.splitlines()` (default `keepends=False`). -/
def pySplitlines (l : List Char) : List (List Char) :=
  pySplitlinesGo l []

/-- The fence-stripping prelude of `_extract_json_from_text`
(src/__init__.py lines 452-463): strip whitespace; if the text starts with
a Markdown fence, drop the opening fence line, drop the closing fence line
when present, rejoin with newlines and strip again. -/
def fenceStripped (l : List Char) : List Char :=
  let t := pyStripL l
  if isFenceL t then
    match pySplitlines t with
    | [] => t
    | _ :: rest =>
      let kept :=
        match rest.getLast? with
        | some lastLine => if isFenceL (pyStripL lastLine) then rest.dropLast else rest
        | none => rest
      pyStripL (List.intercalate ['\n'] kept)
  else t

/-- Index of the first occurrence of `c`, Python `str.find` (but `none`
instead of `-1`). -/
def firstIdxOf (c : Char) : List Char → Option Nat
  | [] => none
  | x :: r => if x = c then some 0 else (· + 1) <$> firstIdxOf c r

/-- Index of the last occurrence of `c`, Python `str.rfind` (but `none`
instead of `-1`). -/
def lastIdxOf (c : Char) : List Char → Option Nat
  | [] => none
  | x :: r =>
    match lastIdxOf c r with
    | some j => some (j + 1)
    | none => if x = c then some 0 else none

/-- The string-aware brace-depth loop of `_extract_json_from_text`
(src/__init__.py lines 470-502), transcribed clause by clause.  `i` is the
absolute index of the head character; `.ok (s, e)` models the early
`return text[obj_start : i + 1]`, `.error os` models falling through the
loop with the final `obj_start` (`none` for `-1`). -/
def braceScan : List Char → Nat → Bool → Bool → Nat → Option Nat →
    Except (Option Nat) (Nat × Nat)
  | [], _, _, _, _, os => .error os
  | c :: r, i, inStr, esc, depth, os =>
    if inStr then
      if esc then braceScan r (i + 1) true false depth os
      else if c = '\\' then braceScan r (i + 1) true true depth os
      else if c = '"' then braceScan r (i + 1) false false depth os
      else braceScan r (i + 1) true false depth os
    else
      if c = '"' then braceScan r (i + 1) true false depth os
      else if c = '{' then
        braceScan r (i + 1) false false (depth + 1) (if depth = 0 then some i else os)
      else if c = '}' then
        if 0 < depth then
          if depth = 1 then
            match os with
            | some s => .ok (s, i)
            | none => braceScan r (i + 1) false false 0 os
          else braceScan r (i + 1) false false (depth - 1) os
        else braceScan r (i + 1) false false depth os
      else braceScan r (i + 1) false false depth os

/-- The balanced-object part of `_extract_json_from_text`
(src/__init__.py lines 465-508): find the first `{`, run the string-aware
scan from there; on success return the balanced slice, otherwise fall back
to the slice ending at the last `}` when it lies after the object start,
else return the text unchanged. -/
def braceExtract (text : List Char) : List Char :=
  match firstIdxOf '{' text with
  | none => text
  | some start =>
    match braceScan (text.drop start) start false false 0 none with
    | .ok (s, e) => (text.take (e + 1)).drop s
    | .error os =>
      match os, lastIdxOf '}' text with
      | some s, some e => if s < e then (text.take (e + 1)).drop s else text
      | _, _ => text

/-- `_extract_json_from_text` (src/__init__.py lines 441-508): fence
stripping followed by the balanced-brace extraction.  Total by
construction: it is a plain function on `List Char`. -/
def _extract_json_from_text (text : List Char) : List Char :=
  braceExtract (fenceStripped text)

/-- Decoded JSON values as produced by Python `json.loads`: `null`,
booleans, integers, strings, arrays, and objects.  Objects are kept as
association lists in source order; lookups take the last binding, since a
later duplicate key overwrites in a Python dict.  Model limitation:
fractional and exponent number literals, `NaN`/`Infinity`, and `\uXXXX`
string escapes are outside the model (the model's `json_loads` rejects
them, where Python would decode floats). -/
inductive Json where
  | null
  | bool (b : Bool)
  | num (n : Int)
  | str (s : List Char)
  | arr (xs : List Json)
  | obj (kvs : List (List Char × Json))

/-- JSON tokens for the `json.loads` model. -/
inductive Tok where
  | lbrace | rbrace | lbrack | rbrack | colon | comma
  | tTrue | tFalse | tNull
  | tStr (s : List Char)
  | tNum (n : Int)
deriving DecidableEq

/-- The whitespace characters Python's JSON scanner skips between tokens. -/
def jsonWs (c : Char) : Bool :=
  c = ' ' || c = '\t' || c = '\n' || c = '\r'

/-- JSON string escapes handled by Python's decoder, minus `\uXXXX`
(outside the model). -/
def unescapeChar (c : Char) : Option Char :=
  if c = '"' then some '"'
  else if c = '\\' then some '\\'
  else if c = '/' then some '/'
  else if c = 'b' then some '\x08'
  else if c = 'f' then some '\x0c'
  else if c = 'n' then some '\n'
  else if c = 'r' then some '\r'
  else if c = 't' then some '\t'
  else none

/-- Decimal value of a digit list. -/
def digitsToNat (ds : List Char) : Nat :=
  ds.foldl (fun n c => n * 10 + (c.toNat - 48)) 0

/-- Validate and convert an accumulated (reversed) number literal: an
optional minus sign followed by digits with no leading zero, as in the
JSON grammar.  Fractional and exponent parts are rejected in the lexer. -/
def finalizeNum (accRev : List Char) : Option Tok :=
  let s := accRev.reverse
  let p := match s with
    | '-' :: rest => (true, rest)
    | _ => (false, s)
  match p.2 with
  | [] => none
  | '0' :: _ :: _ => none
  | ds =>
    if ds.all Char.isDigit then
      some (.tNum (if p.1 then -(digitsToNat ds : Int) else (digitsToNat ds : Int)))
    else none

/-- Lexer state: top level, inside a string (accumulator reversed), right
after a backslash in a string, or inside a number literal. -/
inductive LexMode where
  | norm
  | str (acc : List Char)
  | strEsc (acc : List Char)
  | num (acc : List Char)

/-- Tokenizer half of the `json.loads` model.  After a number literal only
whitespace, `,`, `]`, `}` or end of input may follow (anything else is an
error in Python's decoder as well, reported at a different stage). -/
def lexGo : LexMode → List Char → Option (List Tok)
  | .norm, [] => some []
  | .norm, 't' :: 'r' :: 'u' :: 'e' :: r => (Tok.tTrue :: ·) <$> lexGo .norm r
  | .norm, 'f' :: 'a' :: 'l' :: 's' :: 'e' :: r => (Tok.tFalse :: ·) <$> lexGo .norm r
  | .norm, 'n' :: 'u' :: 'l' :: 'l' :: r => (Tok.tNull :: ·) <$> lexGo .norm r
  | .norm, c :: r =>
    if jsonWs c then lexGo .norm r
    else if c = '{' then (Tok.lbrace :: ·) <$> lexGo .norm r
    else if c = '}' then (Tok.rbrace :: ·) <$> lexGo .norm r
    else if c = '[' then (Tok.lbrack :: ·) <$> lexGo .norm r
    else if c = ']' then (Tok.rbrack :: ·) <$> lexGo .norm r
    else if c = ':' then (Tok.colon :: ·) <$> lexGo .norm r
    else if c = ',' then (Tok.comma :: ·) <$> lexGo .norm r
    else if c = '"' then lexGo (.str []) r
    else if c = '-' || c.isDigit then lexGo (.num [c]) r
    else none
  | .str _, [] => none
  | .str acc, c :: r =>
    if c = '"' then (Tok.tStr acc.reverse :: ·) <$> lexGo .norm r
    else if c = '\\' then lexGo (.strEsc acc) r
    else if c.val < 32 then none
    else lexGo (.str (c :: acc)) r
  | .strEsc _, [] => none
  | .strEsc acc, c :: r =>
    match unescapeChar c with
    | some d => lexGo (.str (d :: acc)) r
    | none => none
  | .num acc, [] => (fun t => [t]) <$> finalizeNum acc
  | .num acc, c :: r =>
    if c.isDigit then lexGo (.num (c :: acc)) r
    else if c = '.' || c = 'e' || c = 'E' then none
    else
      match finalizeNum acc with
      | none => none
      | some t =>
        if jsonWs c then (t :: ·) <$> lexGo .norm r
        else if c = ',' then (fun ts => t :: Tok.comma :: ts) <$> lexGo .norm r
        else if c = ']' then (fun ts => t :: Tok.rbrack :: ts) <$> lexGo .norm r
        else if c = '}' then (fun ts => t :: Tok.rbrace :: ts) <$> lexGo .norm r
        else none

/-- What the token parser is currently reading: a value, the items of an
array after `[`, or the items of an object after `{`. -/
inductive PKind where
  | val | arrItems | objItems

/-- Fuel-indexed recursive-descent parser over tokens (second half of the
`json.loads` model).  The fuel passed by `json_loads` is generous for any
realistic nesting; Python's own recursion limit plays the same role. -/
def pGo : Nat → PKind → List Tok → Option (Json × List Tok)
  | 0, _, _ => none
  | Nat.succ fuel, .val, ts =>
    match ts with
    | .tNull :: r => some (.null, r)
    | .tTrue :: r => some (.bool true, r)
    | .tFalse :: r => some (.bool false, r)
    | .tNum n :: r => some (.num n, r)
    | .tStr s :: r => some (.str s, r)
    | .lbrack :: .rbrack :: r => some (.arr [], r)
    | .lbrack :: r => pGo fuel .arrItems r
    | .lbrace :: .rbrace :: r => some (.obj [], r)
    | .lbrace :: r => pGo fuel .objItems r
    | _ => none
  | Nat.succ fuel, .arrItems, ts =>
    match pGo fuel .val ts with
    | some (v, .comma :: r2) =>
      match pGo fuel .arrItems r2 with
      | some (.arr xs, r3) => some (.arr (v :: xs), r3)
      | _ => none
    | some (v, .rbrack :: r2) => some (.arr [v], r2)
    | _ => none
  | Nat.succ fuel, .objItems, ts =>
    match ts with
    | .tStr k :: .colon :: r =>
      match pGo fuel .val r with
      | some (v, .comma :: r2) =>
        match pGo fuel .objItems r2 with
        | some (.obj kvs, r3) => some (.obj ((k, v) :: kvs), r3)
        | _ => none
      | some (v, .rbrace :: r2) => some (.obj [(k, v)], r2)
      | _ => none
    | _ => none

/-- Model of Python `json.loads`: tokenize, parse one value, and require
the whole input to be consumed (Python raises `Extra data` otherwise). -/
def json_loads (cs : List Char) : Option Json :=
  match lexGo .norm cs with
  | none => none
  | some ts =>
    match pGo (2 * ts.length + 2) .val ts with
    | some (v, []) => some v
    | _ => none

/-- Python truthiness (`bool(x)`) of a decoded JSON value. -/
def jTruthy : Json → Bool
  | .null => false
  | .bool b => b
  | .num n => n != 0
  | .str s => !s.isEmpty
  | .arr xs => !xs.isEmpty
  | .obj kvs => !kvs.isEmpty

/-- Escape one character for Python `repr` of a string, given the chosen
quote character.  Model limitation: `\x`/`\u` escapes of non-printable
characters are not applied (such characters are kept as themselves). -/
def pyReprEsc (quote c : Char) : List Char :=
  if c = '\\' then ['\\', '\\']
  else if c = quote then ['\\', quote]
  else if c = '\n' then ['\\', 'n']
  else if c = '\r' then ['\\', 'r']
  else if c = '\t' then ['\\', 't']
  else [c]

/-- Python `repr` of a string: single-quoted unless the string contains a
single quote and no double quote. -/
def pyReprStr (s : List Char) : List Char :=
  let q := if s.contains '\'' && !s.contains '"' then '"' else '\''
  q :: s.foldr (fun c acc => pyReprEsc q c ++ acc) [q]

/-- Python `repr` of a decoded JSON value, with `fuel` bounding the
recursion depth (Python's own recursion limit plays the same role). -/
def pyReprJ : Nat → Json → List Char
  | _, .null => "None".toList
  | _, .bool true => "True".toList
  | _, .bool false => "False".toList
  | _, .num n => (toString n).toList
  | _, .str s => pyReprStr s
  | 0, .arr _ => []
  | 0, .obj _ => []
  | Nat.succ fuel, .arr xs =>
    '[' :: (List.intercalate (", ".toList) (xs.map (pyReprJ fuel)) ++ [']'])
  | Nat.succ fuel, .obj kvs =>
    '{' :: (List.intercalate (", ".toList)
      (kvs.map (fun kv => pyReprStr kv.1 ++ ": ".toList ++ pyReprJ fuel kv.2)) ++ ['}'])

/-- Python `str()` of a decoded JSON value as applied by
`_parse_split_cards_from_text` and `_provider`: identity on strings,
`None`/`True`/`False`/decimal digits for the other atoms, `repr` for
containers. -/
def pyStrJ : Json → List Char
  | .str s => s
  | v => pyReprJ 1000 v

/-- Lookup in a decoded JSON object; the last binding wins, since a later
duplicate key overwrites in a Python dict. -/
def lookupLast (kvs : List (List Char × Json)) (k : List Char) : Option Json :=
  match kvs with
  | [] => none
  | (k', v) :: rest =>
    match lookupLast rest k with
    | some w => some w
    | none => if k' = k then some v else none

/-- Python `d.get(k)` on a decoded object: `None` when the key is absent. -/
def pyGetN (kvs : List (List Char × Json)) (k : List Char) : Json :=
  match lookupLast kvs k with
  | some v => v
  | none => .null

/-- `SplitCard` (src/__init__.py lines 431-434). -/
structure SplitCard where
  question : List Char
  answer : List Char
deriving DecidableEq

/-- The `RuntimeError` kinds `_parse_split_cards_from_text` can raise, plus
the uncaught `AttributeError` that `data.get` raises when the decoded
top-level value is not a dict. -/
inductive ParseError where
  | emptyResponse
  | malformedJSON
  | attributeError
  | missingCardsField
  | noValidCards
deriving DecidableEq

def questionKey : List Char := "question".toList

def answerKey : List Char := "answer".toList

def cardsKey : List Char := "cards".toList

/-- Python `x or ""` for a value fetched with `.get` (`None` when absent):
keep a truthy value, otherwise the empty string. -/
def orEmptyStr (v : Json) : Json :=
  if jTruthy v then v else .str []

/-- The per-entry body of the loop in `_parse_split_cards_from_text`
(src/__init__.py lines 606-613): skip entries that are not dicts; fetch
`question` and `answer` with `.get`, replace falsy values by `""`, apply
`str()` and `.strip()`; skip the entry when either is empty; otherwise
build the card. -/
def cardFromEntry : Json → Option SplitCard
  | .obj kvs =>
    let q := pyStripL (pyStrJ (orEmptyStr (pyGetN kvs questionKey)))
    let a := pyStripL (pyStrJ (orEmptyStr (pyGetN kvs answerKey)))
    if q.isEmpty || a.isEmpty then none else some ⟨q, a⟩
  | _ => none

/-- The tail of `_parse_split_cards_from_text` once a list was found under
`cards` (src/__init__.py lines 602-618): `MissingCardsField` when the list
is empty (`not cards_data`), otherwise run the per-entry loop;
`NoValidCards` when nothing survives, else the surviving cards in order. -/
def parse_stage_cards (cardsData : List Json) :
    Except ParseError (List SplitCard) :=
  if cardsData.isEmpty then .error .missingCardsField
  else
    let result := cardsData.filterMap cardFromEntry
    if result.isEmpty then .error .noValidCards else .ok result

/-- The tail of `_parse_split_cards_from_text` once decoding succeeded
(src/__init__.py lines 601-618): `data.get("cards")` raises
`AttributeError` on a non-dict `data`; a value under `cards` that is not a
(non-empty) list is `MissingCardsField`. -/
def parse_stage_data (data : Json) : Except ParseError (List SplitCard) :=
  match data with
  | .obj kvs =>
    match pyGetN kvs cardsKey with
    | .arr cardsData => parse_stage_cards cardsData
    | _ => .error .missingCardsField
  | _ => .error .attributeError

/-- `_parse_split_cards_from_text` (src/__init__.py lines 591-618). -/
def _parse_split_cards_from_text (content : List Char) :
    Except ParseError (List SplitCard) :=
  if content.isEmpty then .error .emptyResponse
  else
    match json_loads (_extract_json_from_text content) with
    | none => .error .malformedJSON
    | some data => parse_stage_data data

def providerKey : List Char := "provider".toList

def modelKey : List Char := "model".toList

def apiKeyEnvKey : List Char := "api_key_env".toList

def apiBaseKey : List Char := "api_base".toList

def openaiModelKey : List Char := "openai_model".toList

def openaiApiKeyEnvKey : List Char := "openai_api_key_env".toList

def openaiApiBaseKey : List Char := "openai_api_base".toList

/-- Python `x or y`: keep `x` when truthy, else `y`. -/
def pyOr (a b : Json) : Json :=
  if jTruthy a then a else b

/-- ASCII lower-casing of one character.  Model limitation: non-ASCII
lower-casing by Python `str.lower` is not applied. -/
def pyLowerChar (c : Char) : Char :=
  if 65 ≤ c.val && c.val ≤ 90 then Char.ofNat (c.toNat + 32) else c

/-- Model of Python `str.lower()`. -/
def pyLower (l : List Char) : List Char :=
  l.map pyLowerChar

/-- The normalised provider string computed inside `_provider`:
`str(config.get("provider", "openai") or "openai").strip().lower()`. -/
def providerNorm (config : List (List Char × Json)) : List Char :=
  pyLower (pyStripL (pyStrJ (pyOr
    (match lookupLast config providerKey with
     | some w => w
     | none => .str "openai".toList)
    (.str "openai".toList))))

/-- `_provider` (src/__init__.py lines 555-557): read `provider` with
default `"openai"`, replace a falsy value by `"openai"`, convert to
string, strip, lower-case; anything other than `"gemini"` collapses to
`"openai"`. -/
def _provider (config : List (List Char × Json)) : List Char :=
  if providerNorm config = "gemini".toList then "gemini".toList
  else "openai".toList

/-- The two provider clients `call_llm_to_split` can route to. -/
inductive Route where
  | openai | gemini
deriving DecidableEq

/-- The provider dispatch of `call_llm_to_split` (src/__init__.py lines
774-777), modelled up to the choice of client: which client function the
call is routed to. -/
def call_llm_route (config : List (List Char × Json)) : Route :=
  if _provider config = "gemini".toList then .gemini else .openai

/-- `_get_openai_settings` (src/__init__.py lines 560-565): each field is
`str(config.get(canonical) or config.get(legacy) or default)` — a Python
`or` chain, so the first *truthy* value wins. -/
def _get_openai_settings (config : List (List Char × Json)) :
    List Char × List Char × List Char :=
  (pyStrJ (pyOr (pyGetN config openaiModelKey)
      (pyOr (pyGetN config modelKey) (.str "gpt-4o-mini".toList))),
   pyStrJ (pyOr (pyGetN config openaiApiKeyEnvKey)
      (pyOr (pyGetN config apiKeyEnvKey) (.str "OPENAI_API_KEY".toList))),
   pyStrJ (pyOr (pyGetN config openaiApiBaseKey)
      (pyOr (pyGetN config apiBaseKey)
        (.str "https://api.openai.com/v1/chat/completions".toList))))

/-- Presence of a key, Python `k in raw`. -/
def hasKey (kvs : List (List Char × Json)) (k : List Char) : Bool :=
  match lookupLast kvs k with
  | some _ => true
  | none => false

/-- `_resolve_conf_value` (src/__init__.py lines 381-395): the first
*present* key wins, in the order numbered key, canonical key, legacy keys,
then the default. -/
def _resolve_conf_value (raw : List (List Char × Json))
    (canonicalKey numberedKey : List Char) (defaultValue : Json)
    (legacyKeys : List (List Char)) : Json :=
  if hasKey raw numberedKey then pyGetN raw numberedKey
  else if hasKey raw canonicalKey then pyGetN raw canonicalKey
  else
    match legacyKeys.find? (fun lk => hasKey raw lk) with
    | some lk => pyGetN raw lk
    | none => defaultValue

/-- Field-scanning state for the `str.format` model. -/
inductive FmtMode where
  | norm
  | field (acc : List Char)

/-- Model of Python `api_base.format(model=model)`: `{{`/`}}` become
literal braces, the field `{model}` is replaced, and any other field name
or stray single brace makes `format` raise (`none`).  Model limitation:
conversion/format-spec suffixes such as `{model!r}` or `{model:>10}` are
treated as raising, where Python would apply them. -/
def pyFormatModel (m : List Char) : FmtMode → List Char → Option (List Char)
  | .norm, [] => some []
  | .norm, '{' :: '{' :: r => ('{' :: ·) <$> pyFormatModel m .norm r
  | .norm, '}' :: '}' :: r => ('}' :: ·) <$> pyFormatModel m .norm r
  | .norm, '{' :: r => pyFormatModel m (.field []) r
  | .norm, '}' :: _ => none
  | .norm, c :: r => (c :: ·) <$> pyFormatModel m .norm r
  | .field _, [] => none
  | .field acc, '}' :: r =>
    if acc.reverse = "model".toList then (m ++ ·) <$> pyFormatModel m .norm r
    else none
  | .field _, '{' :: _ => none
  | .field acc, c :: r => pyFormatModel m (.field (c :: acc)) r

/-- Python substring test `pat in l`. -/
def containsSub (l pat : List Char) : Bool :=
  pat.isPrefixOf l ||
    match l with
    | [] => false
    | _ :: r => containsSub r pat

/-- Python `l.endswith(suffix)`. -/
def endsWithL (l suffix : List Char) : Bool :=
  suffix.isSuffixOf l

/-- The literal `{model}` placeholder looked for in the API base. -/
def modelPlaceholder : List Char := "\x7bmodel\x7d".toList

/-- `_build_gemini_generatecontent_url` (src/__init__.py lines 576-588):
strip the base; if it contains `{model}`, run `str.format`; otherwise drop
one trailing slash, then append `/{model}:generateContent` when the base
now ends in `/models`, else append `/models/{model}:generateContent`.
The result is `none` exactly when `format` raises. -/
def _build_gemini_generatecontent_url (apiBase model : List Char) :
    Option (List Char) :=
  let b := pyStripL apiBase
  if containsSub b modelPlaceholder then pyFormatModel model .norm b
  else
    let b2 := if endsWithL b "/".toList then b.dropLast else b
    if endsWithL b2 "/models".toList then
      some (b2 ++ '/' :: (model ++ ":generateContent".toList))
    else
      some (b2 ++ "/models/".toList ++ model ++ ":generateContent".toList)

/-- The fallback result of `_extract_json_from_text` when the scan saw
object start `os` and the depth never returned to zero: the slice from the
start to the last `}` when that lies after the start, else the text
unchanged. -/
def truncFallback (text : List Char) (os : Option Nat) : List Char :=
  match os, lastIdxOf '}' text with
  | some s, some e => if s < e then (text.take (e + 1)).drop s else text
  | _, _ => text

/-- Segments that the string-aware scanner of `_extract_json_from_text`
passes through without disturbing its bookkeeping while the brace depth
stays positive: ordinary characters, complete quoted strings whose
contents contain neither `"` nor `\` (braces inside strings are allowed),
and complete balanced `{...}` sub-objects.  This is the "balanced,
string-aware object" shape that claim C2 quantifies over. -/
inductive Neutral : List Char → Prop
  | nil : Neutral []
  | other (c : Char) (rest : List Char) :
      c ≠ '"' → c ≠ '{' → c ≠ '}' → Neutral rest → Neutral (c :: rest)
  | str (content rest : List Char) :
      (∀ c ∈ content, c ≠ '"' ∧ c ≠ '\\') → Neutral rest →
      Neutral ('"' :: (content ++ '"' :: rest))
  | obj (inner rest : List Char) :
      Neutral inner → Neutral rest →
      Neutral ('{' :: (inner ++ '}' :: rest))

/-- The inner text of one `{"question":Q,"answer":A}` entry, with `Q` and
`A` spliced in as string contents. -/
def entryInner (Q A : List Char) : List Char :=
  '"' :: (questionKey ++ '"' :: (':' :: ('"' :: (Q ++ '"' :: (',' ::
    ('"' :: (answerKey ++ '"' :: (':' :: ('"' :: (A ++ '"' :: []))))))))))

/-- The inner text of `{"cards":[{"question":Q,"answer":A}]}`. -/
def cardsInner (Q A : List Char) : List Char :=
  '"' :: (cardsKey ++ '"' :: (':' :: ('[' :: ('{' ::
    (entryInner Q A ++ '}' :: (']' :: []))))))

/-- The literal input `{"cards":[{"question":Q,"answer":A}]}`. -/
def mkCardsInput (Q A : List Char) : List Char :=
  '{' :: (cardsInner Q A ++ '}' :: [])

/-- The inner text of a `{"question":Q2}` entry with no `answer` key. -/
def entryNoAnswerInner (Q2 : List Char) : List Char :=
  '"' :: (questionKey ++ '"' :: (':' :: ('"' :: (Q2 ++ '"' :: []))))

/-- The inner text of
`{"cards":[{"question":Q1,"answer":A1},{"question":Q2}]}`. -/
def cards2Inner (Q1 A1 Q2 : List Char) : List Char :=
  '"' :: (cardsKey ++ '"' :: (':' :: ('[' :: ('{' ::
    (entryInner Q1 A1 ++ '}' :: (',' :: ('{' ::
    (entryNoAnswerInner Q2 ++ '}' :: (']' :: [])))))))))

/-- The literal two-entry input, the second entry missing `answer`. -/
def mkCards2Input (Q1 A1 Q2 : List Char) : List Char :=
  '{' :: (cards2Inner Q1 A1 Q2 ++ '}' :: [])

/-- Any slice `(t.take e).drop a` is a contiguous piece of `t`. -/
theorem exists_slice_decomp (t : List Char) (a e : Nat) :
    ∃ p s, t = p ++ (t.take e).drop a ++ s := by
  refine ⟨(t.take e).take a, t.drop e, ?_⟩
  rw [List.take_append_drop, List.take_append_drop]

/-- `braceExtract` returns its input unchanged or a contiguous slice of it. -/
theorem braceExtract_cases (t : List Char) :
    braceExtract t = t ∨ ∃ a e, braceExtract t = (t.take e).drop a := by
  unfold braceExtract
  split
  · exact .inl rfl
  · split
    · exact .inr ⟨_, _, rfl⟩
    · split
      · split
        · exact .inr ⟨_, _, rfl⟩
        · exact .inl rfl
      · exact .inl rfl

/-- C3: `_extract_json_from_text` is a total function (a plain Lean
function on `List Char`, mirroring that the Python body cannot raise), and
on every input its result is the fence-stripped, trimmed text itself
(`p = s = []`) or a contiguous best-effort substring of it. -/
theorem C3_extract_total_substring (text : List Char) :
    ∃ p s, fenceStripped text = p ++ _extract_json_from_text text ++ s := by
  unfold _extract_json_from_text
  rcases braceExtract_cases (fenceStripped text) with h | ⟨a, e, h⟩
  · exact ⟨[], [], by simp [h]⟩
  · rw [h]
    exact exists_slice_decomp _ a e

/-- C6: whenever the string-aware scan of `_extract_json_from_text` finds
an object start but the brace depth never returns to zero (truncated
JSON), extraction returns the slice from the recorded object start to the
last `}` anywhere in the text whenever that position is after the object
start, and otherwise returns the (fence-stripped) text unchanged. -/
theorem C6_truncated_fallback (text : List Char) (start : Nat) (os : Option Nat)
    (hf : fenceStripped text = text)
    (h1 : firstIdxOf '{' text = some start)
    (h2 : braceScan (text.drop start) start false false 0 none = Except.error os) :
    _extract_json_from_text text = truncFallback text os := by
  simp only [_extract_json_from_text, braceExtract, truncFallback, hf, h1, h2]

/-- C6 witness: a truncated object whose only `}` sits inside an
unfinished string is cut at that `}`; a truncated object with no `}` at
all is returned unchanged. -/
theorem C6_truncated_fallback_witness :
    _extract_json_from_text "hi \x7b\"a\": \"\x7d".toList = "\x7b\"a\": \"\x7d".toList ∧
    _extract_json_from_text "x \x7b\"a\": \"b".toList = "x \x7b\"a\": \"b".toList := by
  constructor
  · exact (C6_truncated_fallback "hi \x7b\"a\": \"\x7d".toList 3 (some 3) rfl rfl rfl).trans rfl
  · exact (C6_truncated_fallback "x \x7b\"a\": \"b".toList 2 (some 2) rfl rfl rfl).trans rfl

/-- C10: provider dispatch is total over arbitrary configurations:
`call_llm_to_split` routes to the Gemini client exactly when the
`provider` value — with the missing-key and falsy defaults applied,
converted to string, stripped and lower-cased — equals `"gemini"`, and
routes to the OpenAI client in every other case (unknown strings, missing
key, falsy values), never failing with an unsupported-provider error.
The last three conjuncts record the missing-key, falsy-value and
unknown-string instances. -/
theorem C10_dispatch_total (config : List (List Char × Json)) :
    (call_llm_route config = .gemini ↔ providerNorm config = "gemini".toList) ∧
    (call_llm_route config = .gemini ∨ call_llm_route config = .openai) ∧
    call_llm_route [] = .openai ∧
    call_llm_route [(providerKey, Json.str [])] = .openai ∧
    call_llm_route [(providerKey, Json.str "claude".toList)] = .openai := by
  refine ⟨?_, ?_, rfl, rfl, rfl⟩
  · unfold call_llm_route _provider
    by_cases h : providerNorm config = "gemini".toList
    · rw [if_pos h, if_pos rfl]
      exact ⟨fun _ => h, fun _ => rfl⟩
    · rw [if_neg h, if_neg (by decide)]
      exact Iff.intro (fun hc => absurd hc (by decide)) (fun hg => absurd hg h)
  · unfold call_llm_route
    by_cases h : _provider config = "gemini".toList
    · rw [if_pos h]
      exact .inl rfl
    · rw [if_neg h]
      exact .inr rfl

/-- Scanning a quote-free, backslash-free string body leaves the scanner
in string state with only the position advanced. -/
theorem braceScan_str_body (content r : List Char) (i depth : Nat)
    (os : Option Nat) (h : ∀ c ∈ content, c ≠ '"' ∧ c ≠ '\\') :
    braceScan (content ++ r) i true false depth os =
      braceScan r (i + content.length) true false depth os := by
  induction content generalizing i with
  | nil => simp
  | cons c cs ih =>
    have hc := h c (by simp)
    have hrest : ∀ x ∈ cs, x ≠ '"' ∧ x ≠ '\\' := fun x hx => h x (by simp [hx])
    have step : braceScan ((c :: cs) ++ r) i true false depth os
        = braceScan (cs ++ r) (i + 1) true false depth os := by
      simp [braceScan, hc.1, hc.2]
    rw [step, ih (i + 1) hrest]
    have harith : i + 1 + cs.length = i + (c :: cs).length := by
      simp [List.length_cons]
      omega
    rw [harith]

/-- Scanning a `Neutral` segment at positive depth, outside a string,
leaves the scanner state unchanged apart from the position: the early
return cannot fire because the depth never reaches zero inside the
segment. -/
theorem braceScan_neutral (m : List Char) (hm : Neutral m) :
    ∀ (r : List Char) (i d : Nat) (os : Option Nat),
      braceScan (m ++ r) i false false (d + 1) os =
        braceScan r (i + m.length) false false (d + 1) os := by
  induction hm with
  | nil =>
    intro r i d os
    simp
  | other c rest hq hlb hrb hn ih =>
    intro r i d os
    have step : braceScan ((c :: rest) ++ r) i false false (d + 1) os
        = braceScan (rest ++ r) (i + 1) false false (d + 1) os := by
      simp [braceScan, hq, hlb, hrb]
    rw [step, ih r (i + 1) d os]
    have harith : i + 1 + rest.length = i + (c :: rest).length := by
      simp [List.length_cons]
      omega
    rw [harith]
  | str content rest hc hn ih =>
    intro r i d os
    have s1 : braceScan (('"' :: (content ++ '"' :: rest)) ++ r) i false false (d + 1) os
        = braceScan ((content ++ '"' :: rest) ++ r) (i + 1) true false (d + 1) os := by
      simp [braceScan]
    have s2 : braceScan ((content ++ '"' :: rest) ++ r) (i + 1) true false (d + 1) os
        = braceScan (('"' :: rest) ++ r) (i + 1 + content.length) true false (d + 1) os := by
      rw [List.append_assoc]
      exact braceScan_str_body content (('"' :: rest) ++ r) (i + 1) (d + 1) os hc
    have s3 : braceScan (('"' :: rest) ++ r) (i + 1 + content.length) true false (d + 1) os
        = braceScan (rest ++ r) (i + 1 + content.length + 1) false false (d + 1) os := by
      simp [braceScan]
    rw [s1, s2, s3, ih r (i + 1 + content.length + 1) d os]
    have harith : i + 1 + content.length + 1 + rest.length
        = i + ('"' :: (content ++ '"' :: rest)).length := by
      simp [List.length_cons, List.length_append]
      omega
    rw [harith]
  | obj inner rest hinner hrest ihInner ihRest =>
    intro r i d os
    have s1 : braceScan (('{' :: (inner ++ '}' :: rest)) ++ r) i false false (d + 1) os
        = braceScan ((inner ++ '}' :: rest) ++ r) (i + 1) false false (d + 2) os := by
      simp [braceScan]
    have s2 : braceScan ((inner ++ '}' :: rest) ++ r) (i + 1) false false (d + 2) os
        = braceScan (('}' :: rest) ++ r) (i + 1 + inner.length) false false (d + 2) os := by
      rw [List.append_assoc]
      exact ihInner (('}' :: rest) ++ r) (i + 1) (d + 1) os
    have s3 : braceScan (('}' :: rest) ++ r) (i + 1 + inner.length) false false (d + 2) os
        = braceScan (rest ++ r) (i + 1 + inner.length + 1) false false (d + 1) os := by
      have h2 : ¬ (d + 2 = 1) := by omega
      have h0 : 0 < d + 2 := by omega
      simp [braceScan, h2, h0]
    rw [s1, s2, s3, ihRest r (i + 1 + inner.length + 1) d os]
    have harith : i + 1 + inner.length + 1 + rest.length
        = i + ('{' :: (inner ++ '}' :: rest)).length := by
      simp [List.length_cons, List.length_append]
      omega
    rw [harith]

/-- Scanning a balanced string-aware object from depth 0 returns exactly
the object's bounds, whatever follows it. -/
theorem braceScan_balanced (inner : List Char) (hn : Neutral inner)
    (suf : List Char) (s : Nat) :
    braceScan ('{' :: (inner ++ '}' :: suf)) s false false 0 none =
      .ok (s, s + 1 + inner.length) := by
  have s1 : braceScan ('{' :: (inner ++ '}' :: suf)) s false false 0 none
      = braceScan (inner ++ '}' :: suf) (s + 1) false false 1 (some s) := by
    simp [braceScan]
  rw [s1, braceScan_neutral inner hn ('}' :: suf) (s + 1) 0 (some s)]
  simp [braceScan]

/-- The first `{` of `p ++ '{' :: rest` sits at index `p.length` when `p`
is brace-free. -/
theorem firstIdxOf_append (p rest : List Char) (hp : '{' ∉ p) :
    firstIdxOf '{' (p ++ '{' :: rest) = some p.length := by
  induction p with
  | nil => simp [firstIdxOf]
  | cons c cs ih =>
    have hc : c ≠ '{' := fun h => hp (h ▸ List.mem_cons_self ..)
    have hcs : '{' ∉ cs := fun h => hp (List.mem_cons_of_mem _ h)
    simp [firstIdxOf, hc, ih hcs]

/-- Slicing `p ++ X` from `p.length` to `p.length + n` yields `X.take n`. -/
theorem slice_middle (p X : List Char) (n : Nat) :
    ((p ++ X).take (p.length + n)).drop p.length = X.take n := by
  rw [List.take_append, List.drop_left]

/-- The brace extraction on `prefix ++ object ++ suffix`, with a brace-free
prefix and a balanced string-aware object, returns exactly the object. -/
theorem braceExtract_of_balanced (p inner suf : List Char)
    (hp : '{' ∉ p) (hn : Neutral inner) :
    braceExtract (p ++ '{' :: (inner ++ '}' :: suf)) = '{' :: (inner ++ ['}']) := by
  have h1 : firstIdxOf '{' (p ++ '{' :: (inner ++ '}' :: suf)) = some p.length :=
    firstIdxOf_append p _ hp
  have hdrop : (p ++ '{' :: (inner ++ '}' :: suf)).drop p.length
      = '{' :: (inner ++ '}' :: suf) := List.drop_left p _
  have h2 : braceScan ((p ++ '{' :: (inner ++ '}' :: suf)).drop p.length)
      p.length false false 0 none = .ok (p.length, p.length + 1 + inner.length) := by
    rw [hdrop]
    exact braceScan_balanced inner hn suf p.length
  simp only [braceExtract, h1, h2]
  have harith : p.length + 1 + inner.length + 1 = p.length + (inner.length + 2) := by
    omega
  rw [harith, slice_middle]
  show ('{' :: (inner ++ '}' :: suf)).take (inner.length + 1 + 1) = _
  rw [List.take_succ_cons, List.take_append]
  simp

/-- C2: for every input of the form `prefix ++ object ++ suffix` where the
prefix contains no `{` and the object is a balanced, string-aware
`{...}` (nesting counted only outside quoted strings, `\` an
escape-next-character marker, quoted braces allowed inside string values),
`_extract_json_from_text` returns exactly the object — from its opening
brace to the matching closing brace inclusive — without desynchronising
on braces inside strings.  The fence/strip prelude is assumed to leave the
input unchanged (hypothesis `hf`). -/
theorem C2_extract_balanced (p inner suf : List Char)
    (hp : '{' ∉ p) (hn : Neutral inner)
    (hf : fenceStripped (p ++ '{' :: (inner ++ '}' :: suf))
      = p ++ '{' :: (inner ++ '}' :: suf)) :
    _extract_json_from_text (p ++ '{' :: (inner ++ '}' :: suf))
      = '{' :: (inner ++ ['}']) := by
  unfold _extract_json_from_text
  rw [hf]
  exact braceExtract_of_balanced p inner suf hp hn

/-- A card entry is `Neutral` when its two string contents are. -/
theorem neutral_entryInner (Q A : List Char)
    (hQ : ∀ c ∈ Q, c ≠ '"' ∧ c ≠ '\\') (hA : ∀ c ∈ A, c ≠ '"' ∧ c ≠ '\\') :
    Neutral (entryInner Q A) := by
  unfold entryInner
  exact .str _ _ (by decide) (.other ':' _ (by decide) (by decide) (by decide)
    (.str _ _ hQ (.other ',' _ (by decide) (by decide) (by decide)
      (.str _ _ (by decide) (.other ':' _ (by decide) (by decide) (by decide)
        (.str _ _ hA .nil))))))

/-- The `{"cards":[...]}` interior is `Neutral` when the two string
contents are. -/
theorem neutral_cardsInner (Q A : List Char)
    (hQ : ∀ c ∈ Q, c ≠ '"' ∧ c ≠ '\\') (hA : ∀ c ∈ A, c ≠ '"' ∧ c ≠ '\\') :
    Neutral (cardsInner Q A) := by
  unfold cardsInner
  exact .str _ _ (by decide) (.other ':' _ (by decide) (by decide) (by decide)
    (.other '[' _ (by decide) (by decide) (by decide)
      (.obj _ _ (neutral_entryInner Q A hQ hA)
        (.other ']' _ (by decide) (by decide) (by decide) .nil))))

/-- C2 witness: the spec's own example — a well-formed object whose
`question` value contains braces — is returned whole and unchanged. -/
theorem C2_extract_balanced_witness :
    _extract_json_from_text (mkCardsInput "what is \x7bx\x7d?".toList "y".toList)
      = mkCardsInput "what is \x7bx\x7d?".toList "y".toList :=
  C2_extract_balanced [] (cardsInner "what is \x7bx\x7d?".toList "y".toList) []
    (by decide) (neutral_cardsInner _ _ (by decide) (by decide)) rfl

/-- Lexing a string body made of plain characters (no quote, no backslash,
no control character) accumulates exactly those characters and then closes
at the quote. -/
theorem lexGo_str_body (Q acc r : List Char)
    (h : ∀ c ∈ Q, c ≠ '"' ∧ c ≠ '\\' ∧ ¬ c.val < 32) :
    lexGo (.str acc) (Q ++ '"' :: r)
      = (Tok.tStr (acc.reverse ++ Q) :: ·) <$> lexGo .norm r := by
  induction Q generalizing acc with
  | nil => simp [lexGo]
  | cons c cs ih =>
    obtain ⟨h1, h2, h3⟩ := h c (by simp)
    have hrest : ∀ x ∈ cs, x ≠ '"' ∧ x ≠ '\\' ∧ ¬ x.val < 32 :=
      fun x hx => h x (by simp [hx])
    have step : lexGo (.str acc) ((c :: cs) ++ '"' :: r)
        = lexGo (.str (c :: acc)) (cs ++ '"' :: r) := by
      simp [lexGo, h1, h2, h3]
    rw [step, ih (c :: acc) hrest]
    simp

/-- Stripping does not change a list that starts with `{` and ends with
`}`. -/
theorem pyStripL_brace (m : List Char) :
    pyStripL ('{' :: (m ++ ['}'])) = '{' :: (m ++ ['}']) := by
  have h1 : pyIsSpace '{' = false := by decide
  have h2 : pyIsSpace '}' = false := by decide
  simp [pyStripL, h1, h2]

/-- A list whose head is not a backtick does not start a fence. -/
theorem isFenceL_not_backtick (c : Char) (l : List Char) (hc : c ≠ backtickChar) :
    isFenceL (c :: l) = false := by
  unfold isFenceL
  cases l with
  | nil => rfl
  | cons b r =>
    cases r with
    | nil => rfl
    | cons d r2 => simp [hc]

/-- The fence/strip prelude leaves a `{...}` object unchanged. -/
theorem fenceStripped_brace (m : List Char) :
    fenceStripped ('{' :: (m ++ ['}'])) = '{' :: (m ++ ['}']) := by
  have hF : isFenceL ('{' :: (m ++ ['}'])) = false :=
    isFenceL_not_backtick '{' _ (by decide)
  unfold fenceStripped
  rw [pyStripL_brace]
  simp [hF]

/-- `mkCardsInput` right-associated, for walking the lexer through it. -/
theorem mkCardsInput_flat (Q A : List Char) :
    mkCardsInput Q A
      = '{' :: '"' :: (cardsKey ++ '"' :: ':' :: '[' :: '{' :: '"' ::
        (questionKey ++ '"' :: ':' :: '"' :: (Q ++ '"' :: ',' :: '"' ::
        (answerKey ++ '"' :: ':' :: '"' :: (A ++ '"' :: '}' :: ']' :: '}' :: []))))) := by
  simp [mkCardsInput, cardsInner, entryInner]

/-- Lexing the tail of the skeleton after the closing quote of `A`. -/
theorem lex_tail_A (A : List Char)
    (hA : ∀ c ∈ A, c ≠ '"' ∧ c ≠ '\\' ∧ ¬ c.val < 32) :
    lexGo (.str []) (A ++ '"' :: '}' :: ']' :: '}' :: [])
      = some [Tok.tStr A, .rbrace, .rbrack, .rbrace] := by
  rw [lexGo_str_body A [] _ hA]
  rfl

/-- Lexing the tail of the skeleton after the closing quote of `Q`. -/
theorem lex_tail_Q (A : List Char)
    (hA : ∀ c ∈ A, c ≠ '"' ∧ c ≠ '\\' ∧ ¬ c.val < 32) :
    lexGo .norm (',' :: '"' :: (answerKey ++ '"' :: ':' :: '"' ::
        (A ++ '"' :: '}' :: ']' :: '}' :: [])))
      = some [Tok.comma, .tStr answerKey, .colon, .tStr A,
          .rbrace, .rbrack, .rbrace] := by
  show (Tok.comma :: ·) <$> ((Tok.tStr answerKey :: ·) <$> ((Tok.colon :: ·) <$>
    lexGo (.str []) (A ++ '"' :: '}' :: ']' :: '}' :: []))) = _
  rw [lex_tail_A A hA]
  rfl

/-- The token list of the skeleton input. -/
theorem lex_mkCardsInput (Q A : List Char)
    (hQ : ∀ c ∈ Q, c ≠ '"' ∧ c ≠ '\\' ∧ ¬ c.val < 32)
    (hA : ∀ c ∈ A, c ≠ '"' ∧ c ≠ '\\' ∧ ¬ c.val < 32) :
    lexGo .norm (mkCardsInput Q A)
      = some [Tok.lbrace, .tStr cardsKey, .colon, .lbrack, .lbrace,
          .tStr questionKey, .colon, .tStr Q, .comma, .tStr answerKey,
          .colon, .tStr A, .rbrace, .rbrack, .rbrace] := by
  rw [mkCardsInput_flat]
  show (Tok.lbrace :: ·) <$> ((Tok.tStr cardsKey :: ·) <$> ((Tok.colon :: ·) <$>
    ((Tok.lbrack :: ·) <$> ((Tok.lbrace :: ·) <$> ((Tok.tStr questionKey :: ·) <$>
    ((Tok.colon :: ·) <$> lexGo (.str []) (Q ++ '"' :: ',' :: '"' ::
      (answerKey ++ '"' :: ':' :: '"' ::
        (A ++ '"' :: '}' :: ']' :: '}' :: []))))))))) = _
  rw [lexGo_str_body Q [] _ hQ, lex_tail_Q A hA]
  rfl

/-- Decoding the skeleton input yields the expected one-entry structure. -/
theorem json_loads_mkCardsInput (Q A : List Char)
    (hQ : ∀ c ∈ Q, c ≠ '"' ∧ c ≠ '\\' ∧ ¬ c.val < 32)
    (hA : ∀ c ∈ A, c ≠ '"' ∧ c ≠ '\\' ∧ ¬ c.val < 32) :
    json_loads (mkCardsInput Q A)
      = some (.obj [(cardsKey, .arr [.obj
          [(questionKey, .str Q), (answerKey, .str A)]])]) := by
  unfold json_loads
  rw [lex_mkCardsInput Q A hQ hA]
  rfl

/-- Evaluating the per-entry loop body on a `{"question":Q,"answer":A}`
entry with string values that are non-empty after trimming. -/
theorem cardFromEntry_str (Q A : List Char)
    (htQ : pyStripL Q ≠ []) (htA : pyStripL A ≠ []) :
    cardFromEntry (.obj [(questionKey, .str Q), (answerKey, .str A)])
      = some ⟨pyStripL Q, pyStripL A⟩ := by
  have hQne : Q.isEmpty = false := by
    cases Q with
    | nil => exact absurd rfl htQ
    | cons c cs => rfl
  have hAne : A.isEmpty = false := by
    cases A with
    | nil => exact absurd rfl htA
    | cons c cs => rfl
  have e1 : pyGetN [(questionKey, Json.str Q), (answerKey, Json.str A)] questionKey
      = .str Q := rfl
  have e2 : pyGetN [(questionKey, Json.str Q), (answerKey, Json.str A)] answerKey
      = .str A := rfl
  have e3 : orEmptyStr (.str Q) = .str Q := by simp [orEmptyStr, jTruthy, hQne]
  have e4 : orEmptyStr (.str A) = .str A := by simp [orEmptyStr, jTruthy, hAne]
  simp only [cardFromEntry, e1, e2, e3, e4]
  simp [pyStrJ, List.isEmpty_eq_false.mpr htQ, List.isEmpty_eq_false.mpr htA]

/-- C1: for every input that is exactly a well-formed
`{"cards":[{"question":Q,"answer":A}]}` object — `Q` and `A` ranging over
all strings of plain characters (no quote, no backslash, no control
character; braces and whitespace allowed) that are non-empty after
trimming — `_parse_split_cards_from_text` succeeds and returns exactly one
`SplitCard` whose question is the trimmed `Q` and whose answer is the
trimmed `A`. -/
theorem C1_parse_wellformed (Q A : List Char)
    (hQ : ∀ c ∈ Q, c ≠ '"' ∧ c ≠ '\\' ∧ ¬ c.val < 32)
    (hA : ∀ c ∈ A, c ≠ '"' ∧ c ≠ '\\' ∧ ¬ c.val < 32)
    (htQ : pyStripL Q ≠ []) (htA : pyStripL A ≠ []) :
    _parse_split_cards_from_text (mkCardsInput Q A)
      = .ok [⟨pyStripL Q, pyStripL A⟩] := by
  have hqp : ∀ c ∈ Q, c ≠ '"' ∧ c ≠ '\\' :=
    fun c hc => ⟨(hQ c hc).1, (hQ c hc).2.1⟩
  have hap : ∀ c ∈ A, c ≠ '"' ∧ c ≠ '\\' :=
    fun c hc => ⟨(hA c hc).1, (hA c hc).2.1⟩
  have hext : _extract_json_from_text (mkCardsInput Q A) = mkCardsInput Q A := by
    unfold _extract_json_from_text
    have hfence : fenceStripped (mkCardsInput Q A) = mkCardsInput Q A :=
      fenceStripped_brace (cardsInner Q A)
    rw [hfence]
    have hb := braceExtract_of_balanced [] (cardsInner Q A) []
      (by decide) (neutral_cardsInner Q A hqp hap)
    simpa [mkCardsInput] using hb
  have hdata : json_loads (_extract_json_from_text (mkCardsInput Q A))
      = some (.obj [(cardsKey, .arr [.obj
          [(questionKey, .str Q), (answerKey, .str A)]])]) := by
    rw [hext]
    exact json_loads_mkCardsInput Q A hQ hA
  unfold _parse_split_cards_from_text
  rw [if_neg (by simp [mkCardsInput]), hdata]
  show parse_stage_data (.obj [(cardsKey, .arr
    [.obj [(questionKey, .str Q), (answerKey, .str A)]])]) = _
  unfold parse_stage_data parse_stage_cards
  show (if (List.filterMap cardFromEntry
        [Json.obj [(questionKey, Json.str Q), (answerKey, Json.str A)]]).isEmpty
      then (Except.error ParseError.noValidCards : Except ParseError (List SplitCard))
      else Except.ok (List.filterMap cardFromEntry
        [Json.obj [(questionKey, Json.str Q), (answerKey, Json.str A)]]))
    = Except.ok [⟨pyStripL Q, pyStripL A⟩]
  rw [List.filterMap_cons, cardFromEntry_str Q A htQ htA]
  rfl

/-- C1 witness: a concrete well-formed one-card object, with whitespace to
trim and a brace inside the question. -/
theorem C1_parse_wellformed_witness :
    _parse_split_cards_from_text (mkCardsInput " what is \x7bx\x7d? ".toList "y".toList)
      = .ok [⟨pyStripL " what is \x7bx\x7d? ".toList, pyStripL "y".toList⟩] :=
  C1_parse_wellformed " what is \x7bx\x7d? ".toList "y".toList
    (by decide) (by decide) (by decide) (by decide)

/-- The answerless entry is `Neutral` when its string content is. -/
theorem neutral_entryNoAnswerInner (Q2 : List Char)
    (hQ : ∀ c ∈ Q2, c ≠ '"' ∧ c ≠ '\\') :
    Neutral (entryNoAnswerInner Q2) := by
  unfold entryNoAnswerInner
  exact .str _ _ (by decide) (.other ':' _ (by decide) (by decide) (by decide)
    (.str _ _ hQ .nil))

/-- The two-entry `{"cards":[...]}` interior is `Neutral`. -/
theorem neutral_cards2Inner (Q1 A1 Q2 : List Char)
    (h1 : ∀ c ∈ Q1, c ≠ '"' ∧ c ≠ '\\') (h2 : ∀ c ∈ A1, c ≠ '"' ∧ c ≠ '\\')
    (h3 : ∀ c ∈ Q2, c ≠ '"' ∧ c ≠ '\\') :
    Neutral (cards2Inner Q1 A1 Q2) := by
  unfold cards2Inner
  exact .str _ _ (by decide) (.other ':' _ (by decide) (by decide) (by decide)
    (.other '[' _ (by decide) (by decide) (by decide)
      (.obj _ _ (neutral_entryInner Q1 A1 h1 h2)
        (.other ',' _ (by decide) (by decide) (by decide)
          (.obj _ _ (neutral_entryNoAnswerInner Q2 h3)
            (.other ']' _ (by decide) (by decide) (by decide) .nil))))))

/-- `mkCards2Input` right-associated, for walking the lexer through it. -/
theorem mkCards2Input_flat (Q1 A1 Q2 : List Char) :
    mkCards2Input Q1 A1 Q2
      = '{' :: '"' :: (cardsKey ++ '"' :: ':' :: '[' :: '{' :: '"' ::
        (questionKey ++ '"' :: ':' :: '"' :: (Q1 ++ '"' :: ',' :: '"' ::
        (answerKey ++ '"' :: ':' :: '"' :: (A1 ++ '"' :: '}' :: ',' :: '{' :: '"' ::
        (questionKey ++ '"' :: ':' :: '"' ::
        (Q2 ++ '"' :: '}' :: ']' :: '}' :: []))))))) := by
  simp [mkCards2Input, cards2Inner, entryInner, entryNoAnswerInner]

/-- Lexing the two-entry skeleton after the closing quote of `Q2`. -/
theorem lex2_tail_Q2 (Q2 : List Char)
    (hQ2 : ∀ c ∈ Q2, c ≠ '"' ∧ c ≠ '\\' ∧ ¬ c.val < 32) :
    lexGo (.str []) (Q2 ++ '"' :: '}' :: ']' :: '}' :: [])
      = some [Tok.tStr Q2, .rbrace, .rbrack, .rbrace] := by
  rw [lexGo_str_body Q2 [] _ hQ2]
  rfl

/-- Lexing the two-entry skeleton after the closing quote of `A1`. -/
theorem lex2_tail_A1 (A1 Q2 : List Char)
    (hA1 : ∀ c ∈ A1, c ≠ '"' ∧ c ≠ '\\' ∧ ¬ c.val < 32)
    (hQ2 : ∀ c ∈ Q2, c ≠ '"' ∧ c ≠ '\\' ∧ ¬ c.val < 32) :
    lexGo (.str []) (A1 ++ '"' :: '}' :: ',' :: '{' :: '"' ::
        (questionKey ++ '"' :: ':' :: '"' :: (Q2 ++ '"' :: '}' :: ']' :: '}' :: [])))
      = some [Tok.tStr A1, .rbrace, .comma, .lbrace, .tStr questionKey,
          .colon, .tStr Q2, .rbrace, .rbrack, .rbrace] := by
  rw [lexGo_str_body A1 [] _ hA1]
  show (Tok.tStr (List.reverse [] ++ A1) :: ·) <$> ((Tok.rbrace :: ·) <$>
    ((Tok.comma :: ·) <$> ((Tok.lbrace :: ·) <$> ((Tok.tStr questionKey :: ·) <$>
    ((Tok.colon :: ·) <$>
      lexGo (.str []) (Q2 ++ '"' :: '}' :: ']' :: '}' :: [])))))) = _
  rw [lex2_tail_Q2 Q2 hQ2]
  rfl

/-- Lexing the two-entry skeleton after the closing quote of `Q1`. -/
theorem lex2_tail_Q1 (A1 Q2 : List Char)
    (hA1 : ∀ c ∈ A1, c ≠ '"' ∧ c ≠ '\\' ∧ ¬ c.val < 32)
    (hQ2 : ∀ c ∈ Q2, c ≠ '"' ∧ c ≠ '\\' ∧ ¬ c.val < 32) :
    lexGo .norm (',' :: '"' :: (answerKey ++ '"' :: ':' :: '"' ::
        (A1 ++ '"' :: '}' :: ',' :: '{' :: '"' ::
        (questionKey ++ '"' :: ':' :: '"' :: (Q2 ++ '"' :: '}' :: ']' :: '}' :: [])))))
      = some [Tok.comma, .tStr answerKey, .colon, .tStr A1, .rbrace, .comma,
          .lbrace, .tStr questionKey, .colon, .tStr Q2,
          .rbrace, .rbrack, .rbrace] := by
  show (Tok.comma :: ·) <$> ((Tok.tStr answerKey :: ·) <$> ((Tok.colon :: ·) <$>
    lexGo (.str []) (A1 ++ '"' :: '}' :: ',' :: '{' :: '"' ::
      (questionKey ++ '"' :: ':' :: '"' ::
        (Q2 ++ '"' :: '}' :: ']' :: '}' :: []))))) = _
  rw [lex2_tail_A1 A1 Q2 hA1 hQ2]
  rfl

/-- The token list of the two-entry skeleton. -/
theorem lex_mkCards2Input (Q1 A1 Q2 : List Char)
    (hQ1 : ∀ c ∈ Q1, c ≠ '"' ∧ c ≠ '\\' ∧ ¬ c.val < 32)
    (hA1 : ∀ c ∈ A1, c ≠ '"' ∧ c ≠ '\\' ∧ ¬ c.val < 32)
    (hQ2 : ∀ c ∈ Q2, c ≠ '"' ∧ c ≠ '\\' ∧ ¬ c.val < 32) :
    lexGo .norm (mkCards2Input Q1 A1 Q2)
      = some [Tok.lbrace, .tStr cardsKey, .colon, .lbrack, .lbrace,
          .tStr questionKey, .colon, .tStr Q1, .comma, .tStr answerKey,
          .colon, .tStr A1, .rbrace, .comma, .lbrace, .tStr questionKey,
          .colon, .tStr Q2, .rbrace, .rbrack, .rbrace] := by
  rw [mkCards2Input_flat]
  show (Tok.lbrace :: ·) <$> ((Tok.tStr cardsKey :: ·) <$> ((Tok.colon :: ·) <$>
    ((Tok.lbrack :: ·) <$> ((Tok.lbrace :: ·) <$> ((Tok.tStr questionKey :: ·) <$>
    ((Tok.colon :: ·) <$> lexGo (.str []) (Q1 ++ '"' :: ',' :: '"' ::
      (answerKey ++ '"' :: ':' :: '"' :: (A1 ++ '"' :: '}' :: ',' :: '{' :: '"' ::
      (questionKey ++ '"' :: ':' :: '"' ::
        (Q2 ++ '"' :: '}' :: ']' :: '}' :: []))))))))))) = _
  rw [lexGo_str_body Q1 [] _ hQ1, lex2_tail_Q1 A1 Q2 hA1 hQ2]
  rfl

/-- Decoding the two-entry skeleton. -/
theorem json_loads_mkCards2Input (Q1 A1 Q2 : List Char)
    (hQ1 : ∀ c ∈ Q1, c ≠ '"' ∧ c ≠ '\\' ∧ ¬ c.val < 32)
    (hA1 : ∀ c ∈ A1, c ≠ '"' ∧ c ≠ '\\' ∧ ¬ c.val < 32)
    (hQ2 : ∀ c ∈ Q2, c ≠ '"' ∧ c ≠ '\\' ∧ ¬ c.val < 32) :
    json_loads (mkCards2Input Q1 A1 Q2)
      = some (.obj [(cardsKey, .arr
          [.obj [(questionKey, .str Q1), (answerKey, .str A1)],
           .obj [(questionKey, .str Q2)]])]) := by
  unfold json_loads
  rw [lex_mkCards2Input Q1 A1 Q2 hQ1 hA1 hQ2]
  rfl

/-- An entry that is a mapping with no truthy `answer` value is dropped:
`c.get("answer")` yields `None`, `or ""` turns it into the empty string,
which is empty after trimming. -/
theorem cardFromEntry_missing_answer (Q2 : List Char) :
    cardFromEntry (.obj [(questionKey, Json.str Q2)]) = none := by
  have e : pyGetN [(questionKey, Json.str Q2)] answerKey = .null := rfl
  simp only [cardFromEntry, e]
  simp [orEmptyStr, jTruthy, pyStrJ, pyStripL]

/-- C9: the per-entry filter of `_parse_split_cards_from_text` drops an
entry silently — without raising — when the entry is not a mapping
(first conjunct) or when its `question`/`answer`, extracted as text and
trimmed, is empty, while keeping every valid sibling: an input with two
entries of which the second is missing `answer` yields exactly the one
`SplitCard` built from the surviving entry (second conjunct). -/
theorem C9_entry_filter (Q1 A1 Q2 : List Char)
    (hQ1 : ∀ c ∈ Q1, c ≠ '"' ∧ c ≠ '\\' ∧ ¬ c.val < 32)
    (hA1 : ∀ c ∈ A1, c ≠ '"' ∧ c ≠ '\\' ∧ ¬ c.val < 32)
    (hQ2 : ∀ c ∈ Q2, c ≠ '"' ∧ c ≠ '\\' ∧ ¬ c.val < 32)
    (ht1 : pyStripL Q1 ≠ []) (ht2 : pyStripL A1 ≠ []) :
    (∀ j : Json, (∀ kvs, j ≠ .obj kvs) → cardFromEntry j = none) ∧
    _parse_split_cards_from_text (mkCards2Input Q1 A1 Q2)
      = .ok [⟨pyStripL Q1, pyStripL A1⟩] := by
  constructor
  · intro j hj
    cases j with
    | obj kvs => exact absurd rfl (hj kvs)
    | null => rfl
    | bool b => rfl
    | num n => rfl
    | str s => rfl
    | arr xs => rfl
  · have hqp : ∀ c ∈ Q1, c ≠ '"' ∧ c ≠ '\\' :=
      fun c hc => ⟨(hQ1 c hc).1, (hQ1 c hc).2.1⟩
    have hap : ∀ c ∈ A1, c ≠ '"' ∧ c ≠ '\\' :=
      fun c hc => ⟨(hA1 c hc).1, (hA1 c hc).2.1⟩
    have hq2p : ∀ c ∈ Q2, c ≠ '"' ∧ c ≠ '\\' :=
      fun c hc => ⟨(hQ2 c hc).1, (hQ2 c hc).2.1⟩
    have hext : _extract_json_from_text (mkCards2Input Q1 A1 Q2)
        = mkCards2Input Q1 A1 Q2 := by
      unfold _extract_json_from_text
      have hfence : fenceStripped (mkCards2Input Q1 A1 Q2) = mkCards2Input Q1 A1 Q2 :=
        fenceStripped_brace (cards2Inner Q1 A1 Q2)
      rw [hfence]
      have hb := braceExtract_of_balanced [] (cards2Inner Q1 A1 Q2) []
        (by decide) (neutral_cards2Inner Q1 A1 Q2 hqp hap hq2p)
      simpa [mkCards2Input] using hb
    have hdata : json_loads (_extract_json_from_text (mkCards2Input Q1 A1 Q2))
        = some (.obj [(cardsKey, .arr
            [.obj [(questionKey, .str Q1), (answerKey, .str A1)],
             .obj [(questionKey, .str Q2)]])]) := by
      rw [hext]
      exact json_loads_mkCards2Input Q1 A1 Q2 hQ1 hA1 hQ2
    unfold _parse_split_cards_from_text
    rw [if_neg (by simp [mkCards2Input]), hdata]
    show parse_stage_data (.obj [(cardsKey, .arr
      [.obj [(questionKey, .str Q1), (answerKey, .str A1)],
       .obj [(questionKey, .str Q2)]])]) = _
    unfold parse_stage_data parse_stage_cards
    show (if (List.filterMap cardFromEntry
          [Json.obj [(questionKey, Json.str Q1), (answerKey, Json.str A1)],
           Json.obj [(questionKey, Json.str Q2)]]).isEmpty
        then (Except.error ParseError.noValidCards : Except ParseError (List SplitCard))
        else Except.ok (List.filterMap cardFromEntry
          [Json.obj [(questionKey, Json.str Q1), (answerKey, Json.str A1)],
           Json.obj [(questionKey, Json.str Q2)]]))
      = Except.ok [⟨pyStripL Q1, pyStripL A1⟩]
    simp only [List.filterMap_cons, List.filterMap_nil,
      cardFromEntry_str Q1 A1 ht1 ht2, cardFromEntry_missing_answer Q2]
    rfl

/-- C9 witness: the concrete two-entry input from the spec's test list. -/
theorem C9_entry_filter_witness :
    (∀ j : Json, (∀ kvs, j ≠ .obj kvs) → cardFromEntry j = none) ∧
    _parse_split_cards_from_text (mkCards2Input "q".toList "a".toList "p".toList)
      = .ok [⟨pyStripL "q".toList, pyStripL "a".toList⟩] :=
  C9_entry_filter "q".toList "a".toList "p".toList
    (by decide) (by decide) (by decide) (by decide) (by decide)

/-- Unfolding `_parse_split_cards_from_text` when decoding succeeded. -/
theorem parse_decoded (content : List Char) (hc : content.isEmpty = false)
    (data : Json)
    (hdec : json_loads (_extract_json_from_text content) = some data) :
    _parse_split_cards_from_text content = parse_stage_data data := by
  unfold _parse_split_cards_from_text
  rw [if_neg (by simp [hc]), hdec]

/-- Unfolding `_parse_split_cards_from_text` when decoding failed. -/
theorem parse_malformed (content : List Char) (hc : content.isEmpty = false)
    (hdec : json_loads (_extract_json_from_text content) = none) :
    _parse_split_cards_from_text content = .error .malformedJSON := by
  unfold _parse_split_cards_from_text
  rw [if_neg (by simp [hc]), hdec]

/-- Unfolding `parse_stage_data` when `cards` holds a list. -/
theorem parse_stage_data_obj (kvs : List (List Char × Json)) (l : List Json)
    (hcards : pyGetN kvs cardsKey = .arr l) :
    parse_stage_data (.obj kvs) = parse_stage_cards l := by
  unfold parse_stage_data
  show (match pyGetN kvs cardsKey with
    | Json.arr cardsData => parse_stage_cards cardsData
    | _ => Except.error ParseError.missingCardsField) = parse_stage_cards l
  rw [hcards]

/-- C4: `_parse_split_cards_from_text` never returns an empty sequence of
`SplitCard`s: any successfully returned list has at least one element
(first conjunct), and when every entry of a non-empty `cards` list is
filtered out it fails with `NoValidCards` rather than returning the empty
list (second conjunct). -/
theorem C4_no_empty_success :
    (∀ (content : List Char) (l : List SplitCard),
      _parse_split_cards_from_text content = .ok l → l ≠ []) ∧
    (∀ (content : List Char) (kvs : List (List Char × Json))
        (cardsData : List Json),
      json_loads (_extract_json_from_text content) = some (.obj kvs) →
      pyGetN kvs cardsKey = .arr cardsData →
      cardsData ≠ [] →
      cardsData.filterMap cardFromEntry = [] →
      _parse_split_cards_from_text content = .error .noValidCards) := by
  constructor
  · intro content l h
    unfold _parse_split_cards_from_text at h
    split at h
    · simp at h
    · split at h
      · simp at h
      · rename_i data
        unfold parse_stage_data at h
        split at h
        · split at h
          · unfold parse_stage_cards at h
            split at h
            · simp at h
            · dsimp only at h
              split at h
              · simp at h
              · rename_i hres
                injection h with h2
                subst h2
                intro hnil
                rw [hnil] at hres
                simp at hres
          · simp at h
        · simp at h
  · intro content kvs cardsData hdec hcards hne hfilter
    have hc : content.isEmpty = false := by
      cases content with
      | nil =>
        rw [show json_loads (_extract_json_from_text []) = none from rfl] at hdec
        simp at hdec
      | cons a t => rfl
    rw [parse_decoded content hc _ hdec, parse_stage_data_obj kvs cardsData hcards]
    unfold parse_stage_cards
    rw [if_neg (by simp [List.isEmpty_eq_false.mpr hne])]
    dsimp only
    simp [hfilter]

/-- C4 witness: a one-card input returns a non-empty list; an input whose
only entry is `{}` (everything filtered out) fails with `NoValidCards`. -/
theorem C4_no_empty_success_witness :
    ([⟨"q".toList, "a".toList⟩] : List SplitCard) ≠ [] ∧
    _parse_split_cards_from_text "\x7b\"cards\":[\x7b\x7d]\x7d".toList
      = .error .noValidCards :=
  ⟨C4_no_empty_success.1
      "\x7b\"cards\":[\x7b\"question\":\"q\",\"answer\":\"a\"\x7d]\x7d".toList
      [⟨"q".toList, "a".toList⟩] rfl,
   C4_no_empty_success.2 "\x7b\"cards\":[\x7b\x7d]\x7d".toList
      [(cardsKey, .arr [.obj []])] [.obj []] rfl rfl (by simp) rfl⟩

/-- `parse_stage_data` can fail with `AttributeError`, `MissingCardsField`
or `NoValidCards`, or succeed — but never with `EmptyResponse`. -/
theorem parse_stage_data_ne_empty (data : Json) :
    parse_stage_data data ≠ .error .emptyResponse := by
  unfold parse_stage_data
  split
  · split
    · unfold parse_stage_cards
      split
      · simp
      · dsimp only
        split
        · simp
        · simp
    · simp
  · simp

/-- C5 counterexample: the whitespace-only (blank but nonempty) input
`" "` does not produce `EmptyResponse`: the code's `if not content` test
is False for `" "`, extraction strips it to `""`, and JSON decoding of
`""` fails, so the error is `MalformedJSON`. -/
theorem C5_blank_counterexample :
    _parse_split_cards_from_text " ".toList = .error .malformedJSON ∧
    _parse_split_cards_from_text " ".toList ≠ .error .emptyResponse := by
  refine ⟨rfl, fun h => ?_⟩
  rw [show _parse_split_cards_from_text " ".toList = .error .malformedJSON from rfl] at h
  simp at h

/-- C5 amended: `_parse_split_cards_from_text` fails with `EmptyResponse`
exactly when its input is the empty string; a blank (whitespace-only)
nonempty input instead strips to nothing and fails with `MalformedJSON`. -/
theorem C5_empty_exact (content : List Char) :
    (_parse_split_cards_from_text content = .error .emptyResponse ↔ content = []) ∧
    (content ≠ [] → pyStripL content = [] →
      _parse_split_cards_from_text content = .error .malformedJSON) := by
  constructor
  · constructor
    · intro h
      by_contra hne
      have hc : content.isEmpty = false := by
        cases content with
        | nil => exact absurd rfl hne
        | cons a t => rfl
      unfold _parse_split_cards_from_text at h
      rw [if_neg (by simp [hc])] at h
      cases hj : json_loads (_extract_json_from_text content) with
      | none =>
        rw [hj] at h
        simp at h
      | some data =>
        rw [hj] at h
        exact parse_stage_data_ne_empty data h
    · intro h
      subst h
      rfl
  · intro hne hstrip
    have hc : content.isEmpty = false := by
      cases content with
      | nil => exact absurd rfl hne
      | cons a t => rfl
    apply parse_malformed content hc
    have hext : _extract_json_from_text content = [] := by
      unfold _extract_json_from_text fenceStripped
      rw [hstrip]
      rfl
    rw [hext]
    rfl

/-- C5 witness: the amended behaviour at the concrete blank input `" "`. -/
theorem C5_empty_exact_witness :
    _parse_split_cards_from_text " ".toList = .error .malformedJSON :=
  (C5_empty_exact " ".toList).2 (by decide) (by decide)

/-- A list is a Boolean prefix of itself followed by anything. -/
theorem isPrefixOf_append_self (pat y : List Char) :
    pat.isPrefixOf (pat ++ y) = true := by
  induction pat with
  | nil => simp [List.isPrefixOf]
  | cons c cs ih => simp [List.isPrefixOf, ih]

/-- Python `in`: the empty pattern is found in any text. -/
theorem containsSub_nil_pat (y : List Char) : containsSub y [] = true := by
  cases y with
  | nil => rfl
  | cons c r => simp [containsSub, List.isPrefixOf]

/-- Python `in`: a pattern occurring in the middle is found. -/
theorem containsSub_middle (x pat y : List Char) :
    containsSub (x ++ (pat ++ y)) pat = true := by
  induction x with
  | nil =>
    cases pat with
    | nil => simpa using containsSub_nil_pat y
    | cons c cs =>
      unfold containsSub
      simp [isPrefixOf_append_self]
  | cons c cs ih =>
    unfold containsSub
    simp [ih]

/-- `str.format` copies a brace-free text verbatim. -/
theorem pyFormatModel_plain (m y : List Char) (hy1 : '{' ∉ y) (hy2 : '}' ∉ y) :
    pyFormatModel m .norm y = some y := by
  induction y with
  | nil => rfl
  | cons c cs ih =>
    have hc1 : c ≠ '{' := fun h => hy1 (h ▸ List.mem_cons_self ..)
    have hc2 : c ≠ '}' := fun h => hy2 (h ▸ List.mem_cons_self ..)
    have hcs1 : '{' ∉ cs := fun h => hy1 (List.mem_cons_of_mem _ h)
    have hcs2 : '}' ∉ cs := fun h => hy2 (List.mem_cons_of_mem _ h)
    simp [pyFormatModel, hc1, hc2, ih hcs1 hcs2]

/-- `str.format` substitutes a single well-formed `{model}` placeholder
between brace-free pieces. -/
theorem pyFormatModel_single (m x y : List Char)
    (hx1 : '{' ∉ x) (hx2 : '}' ∉ x) (hy1 : '{' ∉ y) (hy2 : '}' ∉ y) :
    pyFormatModel m .norm (x ++ (modelPlaceholder ++ y)) = some (x ++ (m ++ y)) := by
  induction x with
  | nil =>
    have hmid : pyFormatModel m .norm (modelPlaceholder ++ y)
        = (m ++ ·) <$> pyFormatModel m .norm y := rfl
    simp [hmid, pyFormatModel_plain m y hy1 hy2]
  | cons c cs ih =>
    have hc1 : c ≠ '{' := fun h => hx1 (h ▸ List.mem_cons_self ..)
    have hc2 : c ≠ '}' := fun h => hx2 (h ▸ List.mem_cons_self ..)
    have hcs1 : '{' ∉ cs := fun h => hx1 (List.mem_cons_of_mem _ h)
    have hcs2 : '}' ∉ cs := fun h => hx2 (List.mem_cons_of_mem _ h)
    simp [pyFormatModel, hc1, hc2, ih hcs1 hcs2]

/-- C7 counterexample: for a base ending in `/models/`, the claim's case
order (check `/models` suffix first, strip the slash only in the third
case) predicts the duplicated
`.../models/models/m:generateContent`; the code strips the slash *before*
the `/models` check and produces `.../models/m:generateContent`. -/
theorem C7_slash_order_counterexample :
    _build_gemini_generatecontent_url "https://g/models/".toList "m".toList
      = some "https://g/models/m:generateContent".toList ∧
    some "https://g/models/m:generateContent".toList
      ≠ some "https://g/models/models/m:generateContent".toList := by
  exact ⟨rfl, by decide⟩

/-- C7 amended: after stripping whitespace, the Gemini endpoint URL
follows three cases — if the base contains `{model}`, Python `format`
substitution is applied (a single well-formed placeholder between
brace-free pieces is replaced by the model, with no `generateContent`
suffix appended); otherwise one trailing slash is stripped *first*, and
then `/{model}:generateContent` is appended when the stripped base ends
in `/models` (no duplicate `/models` segment), else
`/models/{model}:generateContent` is appended. -/
theorem C7_gemini_url_cases (b m : List Char) (hb : pyStripL b = b) :
    (∀ x y, '{' ∉ x → '}' ∉ x → '{' ∉ y → '}' ∉ y →
      b = x ++ (modelPlaceholder ++ y) →
      _build_gemini_generatecontent_url b m = some (x ++ (m ++ y))) ∧
    (containsSub b modelPlaceholder = false →
      endsWithL (if endsWithL b "/".toList then b.dropLast else b)
        "/models".toList = true →
      _build_gemini_generatecontent_url b m
        = some ((if endsWithL b "/".toList then b.dropLast else b)
            ++ '/' :: (m ++ ":generateContent".toList))) ∧
    (containsSub b modelPlaceholder = false →
      endsWithL (if endsWithL b "/".toList then b.dropLast else b)
        "/models".toList = false →
      _build_gemini_generatecontent_url b m
        = some ((if endsWithL b "/".toList then b.dropLast else b)
            ++ "/models/".toList ++ m ++ ":generateContent".toList)) := by
  refine ⟨?_, ?_, ?_⟩
  · intro x y hx1 hx2 hy1 hy2 heq
    unfold _build_gemini_generatecontent_url
    rw [hb, heq]
    rw [if_pos (containsSub_middle x modelPlaceholder y)]
    exact pyFormatModel_single m x y hx1 hx2 hy1 hy2
  · intro h1 h2
    unfold _build_gemini_generatecontent_url
    rw [hb, if_neg (by simp [h1])]
    dsimp only
    rw [if_pos h2]
  · intro h1 h2
    unfold _build_gemini_generatecontent_url
    rw [hb, if_neg (by simp [h1])]
    dsimp only
    have h2x : ¬ (endsWithL (if endsWithL b "/".toList then b.dropLast else b)
        "/models".toList = true) := by
      rw [h2]
      decide
    rw [if_neg h2x]

/-- C7 witness: the three amended cases at concrete bases — placeholder
substitution, a base already ending in `/models`, and the spec's default
Gemini base. -/
theorem C7_gemini_url_cases_witness :
    _build_gemini_generatecontent_url
        "https://x/\x7bmodel\x7d:generateContent".toList "m".toList
      = some "https://x/m:generateContent".toList ∧
    _build_gemini_generatecontent_url "https://x/models".toList "m".toList
      = some "https://x/models/m:generateContent".toList ∧
    _build_gemini_generatecontent_url
        "https://generativelanguage.googleapis.com/v1beta".toList
        "gemini-2.5-flash".toList
      = some "https://generativelanguage.googleapis.com/v1beta/models/gemini-2.5-flash:generateContent".toList := by
  refine ⟨?_, ?_, ?_⟩
  · exact ((C7_gemini_url_cases "https://x/\x7bmodel\x7d:generateContent".toList
      "m".toList (by decide)).1 "https://x/".toList ":generateContent".toList
      (by decide) (by decide) (by decide) (by decide) (by decide)).trans rfl
  · exact ((C7_gemini_url_cases "https://x/models".toList "m".toList
      (by decide)).2.1 (by decide) (by decide)).trans rfl
  · exact ((C7_gemini_url_cases
      "https://generativelanguage.googleapis.com/v1beta".toList
      "gemini-2.5-flash".toList (by decide)).2.2 (by decide) (by decide)).trans rfl

/-- C8 counterexample: a config in which `openai_model` is *present* but
empty, with a legacy `model` of `"x"`.  The claim's "first present key
wins" predicts the empty string; the code's `or` chain skips the falsy
value and resolves `"x"`. -/
theorem C8_falsy_counterexample :
    (_get_openai_settings [(openaiModelKey, Json.str []),
        (modelKey, Json.str "x".toList)]).1 = "x".toList ∧
    "x".toList ≠ ([] : List Char) :=
  ⟨rfl, by decide⟩

/-- C8 amended: provider-settings resolution in `_get_openai_settings` is
an `or` chain, so for each of the three fields — model, apiKeyEnvVar,
apiBase — the first *truthy* value wins in the order provider-specific
canonical key → generic legacy key → hardcoded default (a
present-but-falsy value is skipped); in particular a config with only a
non-empty legacy key resolves each field to that legacy value.
`get_config`-level resolution (`_resolve_conf_value`) is presence-based,
in the order numbered key → canonical key → legacy keys → default. -/
theorem C8_resolution_order (config raw : List (List Char × Json))
    (canonicalKey numberedKey : List Char) (defaultValue : Json)
    (legacyKeys : List (List Char)) :
    (jTruthy (pyGetN config openaiModelKey) = true →
      (_get_openai_settings config).1 = pyStrJ (pyGetN config openaiModelKey)) ∧
    (jTruthy (pyGetN config openaiModelKey) = false →
      jTruthy (pyGetN config modelKey) = true →
      (_get_openai_settings config).1 = pyStrJ (pyGetN config modelKey)) ∧
    (jTruthy (pyGetN config openaiModelKey) = false →
      jTruthy (pyGetN config modelKey) = false →
      (_get_openai_settings config).1 = "gpt-4o-mini".toList) ∧
    (jTruthy (pyGetN config openaiApiKeyEnvKey) = true →
      (_get_openai_settings config).2.1
        = pyStrJ (pyGetN config openaiApiKeyEnvKey)) ∧
    (jTruthy (pyGetN config openaiApiKeyEnvKey) = false →
      jTruthy (pyGetN config apiKeyEnvKey) = true →
      (_get_openai_settings config).2.1 = pyStrJ (pyGetN config apiKeyEnvKey)) ∧
    (jTruthy (pyGetN config openaiApiKeyEnvKey) = false →
      jTruthy (pyGetN config apiKeyEnvKey) = false →
      (_get_openai_settings config).2.1 = "OPENAI_API_KEY".toList) ∧
    (jTruthy (pyGetN config openaiApiBaseKey) = true →
      (_get_openai_settings config).2.2
        = pyStrJ (pyGetN config openaiApiBaseKey)) ∧
    (jTruthy (pyGetN config openaiApiBaseKey) = false →
      jTruthy (pyGetN config apiBaseKey) = true →
      (_get_openai_settings config).2.2 = pyStrJ (pyGetN config apiBaseKey)) ∧
    (jTruthy (pyGetN config openaiApiBaseKey) = false →
      jTruthy (pyGetN config apiBaseKey) = false →
      (_get_openai_settings config).2.2
        = "https://api.openai.com/v1/chat/completions".toList) ∧
    (∀ s : List Char, s ≠ [] →
      (_get_openai_settings [(modelKey, Json.str s)]).1 = s) ∧
    (∀ s : List Char, s ≠ [] →
      (_get_openai_settings [(apiKeyEnvKey, Json.str s)]).2.1 = s) ∧
    (∀ s : List Char, s ≠ [] →
      (_get_openai_settings [(apiBaseKey, Json.str s)]).2.2 = s) ∧
    (hasKey raw numberedKey = true →
      _resolve_conf_value raw canonicalKey numberedKey defaultValue legacyKeys
        = pyGetN raw numberedKey) ∧
    (hasKey raw numberedKey = false → hasKey raw canonicalKey = true →
      _resolve_conf_value raw canonicalKey numberedKey defaultValue legacyKeys
        = pyGetN raw canonicalKey) ∧
    (∀ lk, hasKey raw numberedKey = false → hasKey raw canonicalKey = false →
      legacyKeys.find? (fun k => hasKey raw k) = some lk →
      _resolve_conf_value raw canonicalKey numberedKey defaultValue legacyKeys
        = pyGetN raw lk) ∧
    (hasKey raw numberedKey = false → hasKey raw canonicalKey = false →
      legacyKeys.find? (fun k => hasKey raw k) = none →
      _resolve_conf_value raw canonicalKey numberedKey defaultValue legacyKeys
        = defaultValue) := by
  refine ⟨?_, ?_, ?_, ?_, ?_, ?_, ?_, ?_, ?_, ?_, ?_, ?_, ?_, ?_, ?_, ?_⟩
  · intro h1
    simp [_get_openai_settings, pyOr, h1]
  · intro h1 h2
    simp [_get_openai_settings, pyOr, h1, h2]
  · intro h1 h2
    simp [_get_openai_settings, pyOr, h1, h2, pyStrJ]
  · intro h1
    simp [_get_openai_settings, pyOr, h1]
  · intro h1 h2
    simp [_get_openai_settings, pyOr, h1, h2]
  · intro h1 h2
    simp [_get_openai_settings, pyOr, h1, h2, pyStrJ]
  · intro h1
    simp [_get_openai_settings, pyOr, h1]
  · intro h1 h2
    simp [_get_openai_settings, pyOr, h1, h2]
  · intro h1 h2
    simp [_get_openai_settings, pyOr, h1, h2, pyStrJ]
  · intro s hs
    have hse : s.isEmpty = false := List.isEmpty_eq_false.mpr hs
    have e1 : pyGetN [(modelKey, Json.str s)] openaiModelKey = .null := rfl
    have e2 : pyGetN [(modelKey, Json.str s)] modelKey = .str s := rfl
    simp [_get_openai_settings, pyOr, e1, e2, jTruthy, hse, pyStrJ]
  · intro s hs
    have hse : s.isEmpty = false := List.isEmpty_eq_false.mpr hs
    have e1 : pyGetN [(apiKeyEnvKey, Json.str s)] openaiApiKeyEnvKey = .null := rfl
    have e2 : pyGetN [(apiKeyEnvKey, Json.str s)] apiKeyEnvKey = .str s := rfl
    simp [_get_openai_settings, pyOr, e1, e2, jTruthy, hse, pyStrJ]
  · intro s hs
    have hse : s.isEmpty = false := List.isEmpty_eq_false.mpr hs
    have e1 : pyGetN [(apiBaseKey, Json.str s)] openaiApiBaseKey = .null := rfl
    have e2 : pyGetN [(apiBaseKey, Json.str s)] apiBaseKey = .str s := rfl
    simp [_get_openai_settings, pyOr, e1, e2, jTruthy, hse, pyStrJ]
  · intro h1
    unfold _resolve_conf_value
    rw [if_pos h1]
  · intro h1 h2
    unfold _resolve_conf_value
    rw [if_neg (by simp [h1]), if_pos h2]
  · intro lk h1 h2 h3
    unfold _resolve_conf_value
    rw [if_neg (by simp [h1]), if_neg (by simp [h2]), h3]
  · intro h1 h2 h3
    unfold _resolve_conf_value
    rw [if_neg (by simp [h1]), if_neg (by simp [h2]), h3]

/-- C8 witness: the amended resolution at concrete configs — for each of
the three fields the truthy canonical key wins and a legacy-only config
resolves to the legacy value, and `_resolve_conf_value` reads the
numbered key when present, else the canonical key, else a found legacy
key, else the default. -/
theorem C8_resolution_order_witness :
    (_get_openai_settings [(openaiModelKey, Json.str "v".toList)]).1
      = pyStrJ (pyGetN [(openaiModelKey, Json.str "v".toList)] openaiModelKey) ∧
    (_get_openai_settings [(openaiApiKeyEnvKey, Json.str "K".toList)]).2.1
      = pyStrJ (pyGetN [(openaiApiKeyEnvKey, Json.str "K".toList)]
          openaiApiKeyEnvKey) ∧
    (_get_openai_settings [(openaiApiBaseKey, Json.str "B".toList)]).2.2
      = pyStrJ (pyGetN [(openaiApiBaseKey, Json.str "B".toList)]
          openaiApiBaseKey) ∧
    (_get_openai_settings [(modelKey, Json.str "legacy".toList)]).1
      = "legacy".toList ∧
    (_get_openai_settings [(apiKeyEnvKey, Json.str "LK".toList)]).2.1
      = "LK".toList ∧
    (_get_openai_settings [(apiBaseKey, Json.str "LB".toList)]).2.2
      = "LB".toList ∧
    _resolve_conf_value [("07_openai_model".toList, Json.str "n".toList)]
        openaiModelKey "07_openai_model".toList (Json.str "d".toList) [modelKey]
      = pyGetN [("07_openai_model".toList, Json.str "n".toList)]
          "07_openai_model".toList ∧
    _resolve_conf_value [(openaiModelKey, Json.str "v".toList)] openaiModelKey
        "07_openai_model".toList (Json.str "d".toList) [modelKey]
      = pyGetN [(openaiModelKey, Json.str "v".toList)] openaiModelKey ∧
    _resolve_conf_value [(modelKey, Json.str "lv".toList)] openaiModelKey
        "07_openai_model".toList (Json.str "d".toList) [modelKey]
      = pyGetN [(modelKey, Json.str "lv".toList)] modelKey ∧
    _resolve_conf_value [] openaiModelKey "07_openai_model".toList
        (Json.str "d".toList) [modelKey]
      = Json.str "d".toList := by
  refine ⟨?_, ?_, ?_, ?_, ?_, ?_, ?_, ?_, ?_, ?_⟩
  · obtain ⟨h, -⟩ := C8_resolution_order
      [(openaiModelKey, Json.str "v".toList)] [] [] [] Json.null []
    exact h (by decide)
  · obtain ⟨-, -, -, h, -⟩ := C8_resolution_order
      [(openaiApiKeyEnvKey, Json.str "K".toList)] [] [] [] Json.null []
    exact h (by decide)
  · obtain ⟨-, -, -, -, -, -, h, -⟩ := C8_resolution_order
      [(openaiApiBaseKey, Json.str "B".toList)] [] [] [] Json.null []
    exact h (by decide)
  · obtain ⟨-, -, -, -, -, -, -, -, -, h, -⟩ := C8_resolution_order
      [] [] [] [] Json.null []
    exact h "legacy".toList (by decide)
  · obtain ⟨-, -, -, -, -, -, -, -, -, -, h, -⟩ := C8_resolution_order
      [] [] [] [] Json.null []
    exact h "LK".toList (by decide)
  · obtain ⟨-, -, -, -, -, -, -, -, -, -, -, h, -⟩ := C8_resolution_order
      [] [] [] [] Json.null []
    exact h "LB".toList (by decide)
  · obtain ⟨-, -, -, -, -, -, -, -, -, -, -, -, h, -⟩ := C8_resolution_order
      [] [("07_openai_model".toList, Json.str "n".toList)] openaiModelKey
      "07_openai_model".toList (Json.str "d".toList) [modelKey]
    exact h (by decide)
  · obtain ⟨-, -, -, -, -, -, -, -, -, -, -, -, -, h, -⟩ := C8_resolution_order
      [] [(openaiModelKey, Json.str "v".toList)] openaiModelKey
      "07_openai_model".toList (Json.str "d".toList) [modelKey]
    exact h (by decide) (by decide)
  · obtain ⟨-, -, -, -, -, -, -, -, -, -, -, -, -, -, h, -⟩ := C8_resolution_order
      [] [(modelKey, Json.str "lv".toList)] openaiModelKey
      "07_openai_model".toList (Json.str "d".toList) [modelKey]
    exact h modelKey (by decide) (by decide) rfl
  · obtain ⟨-, -, -, -, -, -, -, -, -, -, -, -, -, -, -, h⟩ := C8_resolution_order
      [] [] openaiModelKey "07_openai_model".toList
      (Json.str "d".toList) [modelKey]
    exact h (by decide) (by decide) rfl
